import Mathlib

/-!
Verification of `scripts/analyze_image.py` (rekognition-image-labeling-pipeline).

The script is a batch pipeline: it enumerates image files in a local
`images/` directory, uploads each to an object store, calls a hosted
label-detection service, and writes one record per file to a key-value
table.  Below we give a shallow embedding of the script in Lean:

* Python dict/list/str/float/int values that flow into the table write are
  modelled by the inductive type `PyVal` (floats carried as exact rationals,
  recording the numeric value the Python float holds at the call site).
* The process environment is a partial map `String → Option String`.
* The directory is a flag (does it exist) plus the list of names of the
  plain files directly inside it; `Path.glob` with pattern `*.ext` is
  modelled as a case-sensitive suffix match on the file name, with no
  recursion into subdirectories (the patterns contain no `**`).
* Each external call (S3 `upload_file`, Rekognition `detect_labels`,
  DynamoDB `put_item`) is an oracle in the `World` structure returning
  `Except String _`; a `.error e` models the call raising an exception
  with text `e`.
* `main` is a total function from a `World` to a `RunResult` that records
  whether the process finished normally (exit code 0), the exact sequence
  of items passed to `put_item`, and the log lines printed.
-/

namespace AnalyzeImage

/-- A Python value as it appears in the item handed to `put_item`.
`float q` is a Python `float` whose numeric value is `q`;
`int` a Python `int`; `decimal` would be the table's accepted
exact-numeric representation (`decimal.Decimal`), which the script
never produces. -/
inductive PyVal where
  | str (s : String)
  | float (q : ℚ)
  | int (n : ℤ)
  | decimal (q : ℚ)
  | list (xs : List PyVal)
  | dict (kvs : List (String × PyVal))

mutual

/-- Does a value contain a Python-`float` leaf anywhere in its nested
structure? -/
def containsFloat : PyVal → Bool
  | .str _ => false
  | .float _ => true
  | .int _ => false
  | .decimal _ => false
  | .list xs => containsFloatList xs
  | .dict kvs => containsFloatKVs kvs

/-- `containsFloat` over the elements of a list. -/
def containsFloatList : List PyVal → Bool
  | [] => false
  | x :: xs => containsFloat x || containsFloatList xs

/-- `containsFloat` over the values of a key-value list. -/
def containsFloatKVs : List (String × PyVal) → Bool
  | [] => false
  | kv :: kvs => containsFloat kv.2 || containsFloatKVs kvs

end

/-- Look a field up in a `dict` value (Python `item["field"]`). -/
def dictGet (field : String) : PyVal → Option PyVal
  | .dict kvs => kvs.lookup field
  | _ => none

-- ## Constants of the script

/-- `IMAGES_DIR = Path("images")`. -/
def IMAGES_DIR : String := "images"

/-- `S3_PREFIX = "rekognition-input"`. -/
def S3_PREFIX : String := "rekognition-input"

-- ## Configuration loader

/-- `get_env_var`: `os.getenv(name)`, raising
`ValueError(f"Missing required environment variable: {name}")` when the
variable is unset or its value is falsy (the empty string). -/
def get_env_var (env : String → Option String) (name : String) :
    Except String String :=
  match env name with
  | none => .error ("Missing required environment variable: " ++ name)
  | some v =>
      if v = "" then .error ("Missing required environment variable: " ++ name)
      else .ok v

structure Config where
  aws_region : String
  s3_bucket : String
  dynamodb_table : String
  deriving DecidableEq, Repr

/-- The three `get_env_var` calls at the top of `main`. -/
def loadConfig (env : String → Option String) : Except String Config := do
  let r ← get_env_var env "AWS_REGION"
  let b ← get_env_var env "S3_BUCKET"
  let t ← get_env_var env "DYNAMODB_TABLE"
  .ok ⟨r, b, t⟩

-- ## File enumerator

/-- The directory as the script sees it: whether `images/` exists, and the
names of the plain files directly inside it (no recursion: the glob
patterns are `*.jpg`, `*.jpeg`, `*.png`, none of which descend). -/
structure Dir where
  dirExists : Bool
  entries : List String

/-- The three glob suffixes, in the order the script iterates them. -/
def globExts : List String := [".jpg", ".jpeg", ".png"]

/-- Does the glob pattern `*` + `ext` match the file name `n`?  `fnmatch`
matches `*.ext` exactly when the name ends with `.ext` (case-sensitively,
`*` matching any sequence of characters, hidden files included —
`pathlib.Path.glob` does not special-case leading dots). -/
def globMatch (ext n : String) : Bool := ext.data.isSuffixOf n.data

/-- Informational line printed when `images/` is missing. -/
def noDirMsg : String :=
  "ℹ️ No '" ++ IMAGES_DIR ++ "' folder found. Nothing to analyze."

/-- `list_image_files`: returns the files found together with the log
lines printed.  Mirrors the script: if the directory is missing, print
and return `[]`; otherwise collect the matches of the three glob
patterns and sort the result (file names here; the paths all share the
`images/` prefix, so sorting names lexicographically is sorting paths
lexicographically). -/
def list_image_files (d : Dir) : List String × List String :=
  if d.dirExists = false then ([], [noDirMsg])
  else
    let image_files :=
      (globExts.map (fun ext => d.entries.filter (fun n => globMatch ext n))).flatten
    (image_files.insertionSort (· ≤ ·), [])

/-- The extension allow-list as a single predicate. -/
def isAllowed (n : String) : Bool := globExts.any (fun ext => globMatch ext n)

-- ## Uploader

/-- The object key for a local file: `f"{S3_PREFIX}/{file_path.name}"`.
A pure function of the file name, hence deterministic across calls. -/
def s3KeyOf (fileName : String) : String := S3_PREFIX ++ "/" ++ fileName

/-- `upload_to_s3`: builds the key `rekognition-input/<file name>`, calls
`upload_file` (the oracle `uploadOutcome`, keyed by the local file name),
and returns the key.  An oracle error models the SDK call raising. -/
def upload_to_s3 (uploadOutcome : String → String → Except String Unit)
    (bucket : String) (fileName : String) : Except String String :=
  let s3_key := s3KeyOf fileName
  match uploadOutcome bucket fileName with
  | .error e => .error e
  | .ok _ => .ok s3_key

-- ## Labeler

/-- One entry of the `Labels` list of the detection response; either field
may be absent (`label.get` with a default at the use site). -/
structure RawLabel where
  name : Option String
  confidence : Option ℚ
  deriving DecidableEq, Repr

/-- A normalized label record: `{"Name": ..., "Confidence": ...}`. -/
structure Label where
  name : String
  confidence : ℚ
  deriving DecidableEq, Repr

/-- Default resolution for one raw entry:
`label.get("Name", "Unknown")` and `float(label.get("Confidence", 0.0))`
(the `float` cast is the identity on the numeric value). -/
def resolveLabel (l : RawLabel) : Label :=
  ⟨l.name.getD "Unknown", l.confidence.getD 0⟩

/-- The normalization loop of `detect_labels`: start from the empty
`labels_out` and append one record per response entry, in response
order.  The argument is `response.get("Labels", [])` (a response with no
`Labels` field yields `[]`). -/
def normalizeLabels (labels : List RawLabel) : List Label :=
  labels.foldl (fun labels_out l => labels_out ++ [resolveLabel l]) []

/-- `detect_labels`: invoke the service (oracle keyed by the object key)
and normalize its response. -/
def detect_labels (detectOutcome : String → Except String (List RawLabel))
    (s3_key : String) : Except String (List Label) :=
  match detectOutcome s3_key with
  | .error e => .error e
  | .ok labels => .ok (normalizeLabels labels)

-- ## Recorder

/-- The dict built for one label inside the item. -/
def labelItem (l : Label) : PyVal :=
  .dict [("Name", .str l.name), ("Confidence", .float l.confidence)]

/-- The item `write_to_dynamodb` constructs and passes to `put_item`,
exactly as the source builds it: the float confidences are embedded
as-is, with no conversion to the table's exact-numeric representation. -/
def buildItem (s3_key : String) (labels : List Label)
    (timestamp branch : String) : PyVal :=
  .dict [("filename", .str s3_key),
         ("labels", .list (labels.map labelItem)),
         ("timestamp", .str timestamp),
         ("branch", .str branch)]

/-- `write_to_dynamodb`: construct the item and call `put_item` (oracle).
Returns the item passed to `put_item` alongside the call's outcome so the
driver can record the invocation. -/
def write_to_dynamodb (putOutcome : PyVal → Except String Unit)
    (s3_key : String) (labels : List Label) (timestamp branch : String) :
    PyVal × Except String Unit :=
  let item := buildItem s3_key labels timestamp branch
  (item, putOutcome item)

-- ## Timestamp

/-- A UTC wall-clock instant, as `datetime.now(timezone.utc)` returns it. -/
structure UTCTime where
  year : Nat
  month : Nat
  day : Nat
  hour : Nat
  minute : Nat
  second : Nat
  microsecond : Nat
  deriving Repr

/-- The decimal digit character for `d < 10` (every argument below is a
`… % 10`, so the catch-all only ever sees `9`). -/
def digitCharOf : Nat → Char
  | 0 => '0' | 1 => '1' | 2 => '2' | 3 => '3' | 4 => '4'
  | 5 => '5' | 6 => '6' | 7 => '7' | 8 => '8' | _ + 9 => '9'

/-- Zero-padded decimal rendering of `n` to width `w` (`%0wd` for values
that fit, matching CPython's rendering of in-range datetime fields). -/
def padChars (w n : Nat) : List Char :=
  (List.range w).reverse.map (fun i => digitCharOf (n / 10 ^ i % 10))

/-- The characters of `datetime.isoformat()` before the UTC offset:
`YYYY-MM-DDTHH:MM:SS[.ffffff]` (the fractional part is omitted when the
microsecond field is zero, as in CPython). -/
def isoCoreChars (t : UTCTime) : List Char :=
  padChars 4 t.year ++ '-' :: padChars 2 t.month ++ '-' :: padChars 2 t.day
    ++ 'T' :: padChars 2 t.hour ++ ':' :: padChars 2 t.minute
    ++ ':' :: padChars 2 t.second
    ++ (if t.microsecond = 0 then [] else '.' :: padChars 6 t.microsecond)

/-- `datetime.now(timezone.utc).isoformat()`: the core followed by the
`+00:00` UTC offset suffix (always present for an aware UTC datetime). -/
def isoformat (t : UTCTime) : String :=
  ⟨isoCoreChars t ++ ('+' :: "00:00".data)⟩

/-- `str.replace` for a non-empty pattern `p :: ps`: scan left to right,
replacing each non-overlapping occurrence of the pattern with `rep`. -/
def replaceChars (p : Char) (ps rep : List Char) : List Char → List Char
  | [] => []
  | c :: cs =>
      if (p :: ps).isPrefixOf (c :: cs) then
        rep ++ replaceChars p ps rep (cs.drop ps.length)
      else
        c :: replaceChars p ps rep cs
  termination_by l => l.length
  decreasing_by
    · simp only [List.length_cons, List.length_drop]; omega
    · simp only [List.length_cons]; omega

/-- The run timestamp:
`datetime.now(timezone.utc).isoformat().replace("+00:00", "Z")`. -/
def runTimestamp (t : UTCTime) : String :=
  ⟨replaceChars '+' "00:00".data "Z".data (isoformat t).data⟩

-- ## Driver

/-- Everything external that `main` touches: environment, directory
contents, the current time, and the outcome of each SDK call. -/
structure World where
  env : String → Option String
  dir : Dir
  now : UTCTime
  uploadOutcome : String → String → Except String Unit
  detectOutcome : String → Except String (List RawLabel)
  putOutcome : PyVal → Except String Unit

/-- The files `main` iterates over. -/
def imageFiles (w : World) : List String := (list_image_files w.dir).1

/-- `os.getenv("BRANCH_NAME", "unknown")`. -/
def branchOf (w : World) : String := (w.env "BRANCH_NAME").getD "unknown"

/-- The error line printed by the per-file `except` handler:
`f"❌ Failed processing {image_path.name}: {exc}"`. -/
def failMsg (fileName errText : String) : String :=
  "❌ Failed processing " ++ fileName ++ ": " ++ errText

/-- The first exception raised while processing one file, if any:
the upload stage, then the detection stage, then the table write, in
the order `main`'s loop body runs them. -/
def stageError (w : World) (bucket ts branch : String) (f : String) :
    Option String :=
  match upload_to_s3 w.uploadOutcome bucket f with
  | .error e => some e
  | .ok s3_key =>
    match detect_labels w.detectOutcome s3_key with
    | .error e => some e
    | .ok labels =>
      match (write_to_dynamodb w.putOutcome s3_key labels ts branch).2 with
      | .error e => some e
      | .ok _ => none

/-- Result of one iteration of the file loop: the `put_item` invocations
it made (the items passed) and the log lines it printed. -/
def processFile (w : World) (bucket ts branch : String) (fileName : String) :
    List PyVal × List String :=
  match upload_to_s3 w.uploadOutcome bucket fileName with
  | .error e => ([], [failMsg fileName e])
  | .ok s3_key =>
    match detect_labels w.detectOutcome s3_key with
    | .error e => ([], [failMsg fileName e])
    | .ok labels =>
      match write_to_dynamodb w.putOutcome s3_key labels ts branch with
      | (item, .error e) => ([item], [failMsg fileName e])
      | (item, .ok _) => ([item], ["✅ Success!"])

/-- The outcome of `main`: did the process finish normally (exit 0), the
sequence of items passed to `put_item` over the whole run, and the log. -/
structure RunResult where
  ok : Bool
  puts : List PyVal
  log : List String

/-- `main`: load configuration (an error here is the unhandled
`ValueError`, i.e. a non-zero exit), read the optional branch name,
compute the timestamp once, enumerate files, and run the per-file loop,
whose body catches every exception. -/
def main (w : World) : RunResult :=
  match loadConfig w.env with
  | .error e => { ok := false, puts := [], log := [e] }
  | .ok cfg =>
    let branch := branchOf w
    let ts := runTimestamp w.now
    let startup :=
      ["✅ Starting Rekognition image analysis job",
       "   Region: " ++ cfg.aws_region,
       "   Bucket: " ++ cfg.s3_bucket,
       "   DynamoDB table: " ++ cfg.dynamodb_table,
       "   Branch: " ++ branch]
    let enum := list_image_files w.dir
    let image_files := imageFiles w
    if image_files = [] then
      { ok := true, puts := [],
        log := startup ++ enum.2 ++
          ["ℹ️ No images found in 'images/'. Add a .jpg/.png file and rerun."] }
    else
      let perFile := image_files.map (processFile w cfg.s3_bucket ts branch)
      { ok := true,
        puts := (perFile.map Prod.fst).flatten,
        log := startup ++ enum.2 ++ (perFile.map Prod.snd).flatten }

-- ## Helper lemmas

lemma foldl_append_map {α β : Type} (f : α → β) :
    ∀ (xs : List α) (acc : List β),
      xs.foldl (fun out l => out ++ [f l]) acc = acc ++ xs.map f
  | [], acc => by simp
  | x :: xs, acc => by
      simp only [List.foldl_cons, List.map_cons]
      rw [foldl_append_map f xs]
      simp

lemma normalizeLabels_eq_map (ls : List RawLabel) :
    normalizeLabels ls = ls.map resolveLabel := by
  simpa [normalizeLabels] using foldl_append_map resolveLabel ls []

-- ## C4

/-- C4: for every required environment variable, an absent or empty value
makes `get_env_var` raise an error naming that variable; with all three
required values present and non-empty, `loadConfig` succeeds and returns
them. -/
theorem config_loader_spec (env : String → Option String) :
    (∀ name, env name = none ∨ env name = some "" →
      get_env_var env name =
        .error ("Missing required environment variable: " ++ name)) ∧
    (∀ r b t, r ≠ "" → b ≠ "" → t ≠ "" →
      env "AWS_REGION" = some r → env "S3_BUCKET" = some b →
      env "DYNAMODB_TABLE" = some t →
      loadConfig env = .ok ⟨r, b, t⟩) := by
  constructor
  · intro name h
    rcases h with h | h <;> simp [get_env_var, h]
  · intro r b t hr hb ht h1 h2 h3
    simp [loadConfig, get_env_var, h1, h2, h3, hr, hb, ht]
    rfl

/-- An environment with all three required variables set. -/
def envFull : String → Option String := fun name =>
  if name = "AWS_REGION" then some "us-east-1"
  else if name = "S3_BUCKET" then some "my-bucket"
  else if name = "DYNAMODB_TABLE" then some "my-table"
  else none

/-- C4 witness: a concrete missing variable raises with its name in the
message; a concrete full environment loads. -/
theorem config_loader_spec_witness :
    get_env_var (fun _ => none) "AWS_REGION" =
      .error ("Missing required environment variable: " ++ "AWS_REGION") ∧
    loadConfig envFull = .ok ⟨"us-east-1", "my-bucket", "my-table"⟩ :=
  ⟨(config_loader_spec (fun _ => none)).1 "AWS_REGION" (Or.inl rfl),
   (config_loader_spec envFull).2 _ _ _ (by decide) (by decide) (by decide)
     rfl rfl rfl⟩

-- ## C6

/-- C6: when the `images/` directory does not exist, the enumerator
returns the empty list, prints one informational line, and raises
nothing (it is a total function into the pair of results and log). -/
theorem enumerator_missing_dir (d : Dir) (h : d.dirExists = false) :
    list_image_files d = ([], [noDirMsg]) ∧
    noDirMsg = "ℹ️ No 'images' folder found. Nothing to analyze." :=
  ⟨by simp [list_image_files, h], rfl⟩

/-- C6 witness: a concrete absent directory. -/
theorem enumerator_missing_dir_witness :
    (Dir.mk false ["cat.jpg", "x.txt"]).dirExists = false ∧
    list_image_files ⟨false, ["cat.jpg", "x.txt"]⟩ = ([], [noDirMsg]) :=
  ⟨rfl, (enumerator_missing_dir ⟨false, ["cat.jpg", "x.txt"]⟩ rfl).1⟩

-- ## C7

/-- C7: normalization returns exactly one output entry per response
entry, in response order (it is the elementwise `resolveLabel` map), and
a missing name/confidence field defaults to `"Unknown"`/`0`. -/
theorem labeler_normalization (labels : List RawLabel) :
    normalizeLabels labels = labels.map resolveLabel ∧
    (normalizeLabels labels).length = labels.length ∧
    (∀ l : RawLabel, l.name = none → (resolveLabel l).name = "Unknown") ∧
    (∀ l : RawLabel, l.confidence = none → (resolveLabel l).confidence = 0) := by
  refine ⟨normalizeLabels_eq_map labels, ?_, ?_, ?_⟩
  · rw [normalizeLabels_eq_map]; exact labels.length_map _
  · intro l h; simp [resolveLabel, h]
  · intro l h; simp [resolveLabel, h]

/-- A concrete detection response with one missing name and one missing
confidence. -/
def rawEx : List RawLabel := [⟨none, some (476/5)⟩, ⟨some "Cat", none⟩]

/-- C7 witness: the defaults at a concrete response. -/
theorem labeler_normalization_witness :
    normalizeLabels rawEx = rawEx.map resolveLabel ∧
    (resolveLabel ⟨none, some (476/5)⟩).name = "Unknown" ∧
    (resolveLabel ⟨some "Cat", none⟩).confidence = 0 :=
  ⟨(labeler_normalization rawEx).1,
   (labeler_normalization rawEx).2.2.1 _ rfl,
   (labeler_normalization rawEx).2.2.2 _ rfl⟩

-- ## C8

/-- C8: the uploader computes the object key as the fixed prefix, a
slash, and the file base name, and returns that key on success; the key
is a pure function of the file name, hence identical across repeated
calls. -/
theorem uploader_key (up : String → String → Except String Unit)
    (bucket fileName : String) (h : up bucket fileName = .ok ()) :
    upload_to_s3 up bucket fileName = .ok (s3KeyOf fileName) ∧
    s3KeyOf fileName = S3_PREFIX ++ "/" ++ fileName :=
  ⟨by simp [upload_to_s3, h], rfl⟩

/-- C8 witness: `"x.png"` maps to `"rekognition-input/x.png"`. -/
theorem uploader_key_witness :
    (fun _ _ => (Except.ok () : Except String Unit)) "b" "x.png" = .ok () ∧
    upload_to_s3 (fun _ _ => .ok ()) "b" "x.png" = .ok (s3KeyOf "x.png") ∧
    s3KeyOf "x.png" = "rekognition-input/x.png" :=
  ⟨rfl, (uploader_key (fun _ _ => .ok ()) "b" "x.png" rfl).1, rfl⟩

-- ## C5

lemma suffix_excl {e1 e2 : String} (h12 : ¬ e1.data <:+ e2.data)
    (h21 : ¬ e2.data <:+ e1.data) {n : String} (hm : globMatch e1 n = true) :
    globMatch e2 n = false := by
  by_contra h
  rw [Bool.not_eq_false] at h
  have s1 := List.isSuffixOf_iff_suffix.mp hm
  have s2 := List.isSuffixOf_iff_suffix.mp h
  rcases List.suffix_or_suffix_of_suffix s1 s2 with hc | hc
  · exact h12 hc
  · exact h21 hc

lemma filter_append_perm {α : Type} (p q : α → Bool)
    (hpq : ∀ a, p a = true → q a = false) :
    ∀ l : List α,
      List.Perm (l.filter p ++ l.filter q) (l.filter (fun a => p a || q a))
  | [] => List.Perm.refl _
  | a :: l => by
    cases hp : p a
    · cases hq : q a
      · simpa [List.filter_cons, hp, hq] using filter_append_perm p q hpq l
      · simp only [List.filter_cons, hp, hq, Bool.false_or, if_pos, if_neg,
          Bool.false_eq_true, ite_false, ite_true]
        exact (List.perm_middle).trans ((filter_append_perm p q hpq l).cons a)
    · have hq := hpq a hp
      simp only [List.filter_cons, hp, hq, Bool.true_or, Bool.false_eq_true,
        ite_false, ite_true, List.cons_append]
      exact (filter_append_perm p q hpq l).cons a

lemma glob_flatten_perm (entries : List String) :
    List.Perm
      ((globExts.map (fun ext => entries.filter (fun n => globMatch ext n))).flatten)
      (entries.filter isAllowed) := by
  have h23 : ∀ n, globMatch ".jpeg" n = true → globMatch ".png" n = false :=
    fun n => suffix_excl (by decide) (by decide)
  have perm1 := filter_append_perm (fun n => globMatch ".jpeg" n)
    (fun n => globMatch ".png" n) h23 entries
  have h123 : ∀ n, globMatch ".jpg" n = true →
      (globMatch ".jpeg" n || globMatch ".png" n) = false := by
    intro n hn
    have a := @suffix_excl ".jpg" ".jpeg" (by decide) (by decide) n hn
    have b := @suffix_excl ".jpg" ".png" (by decide) (by decide) n hn
    simp [a, b]
  have perm2 := filter_append_perm (fun n => globMatch ".jpg" n)
    (fun n => globMatch ".jpeg" n || globMatch ".png" n) h123 entries
  have hshape :
      (globExts.map (fun ext => entries.filter (fun n => globMatch ext n))).flatten
        = entries.filter (fun n => globMatch ".jpg" n)
          ++ (entries.filter (fun n => globMatch ".jpeg" n)
              ++ entries.filter (fun n => globMatch ".png" n)) := by
    simp [globExts]
  have hall : entries.filter
      (fun n => globMatch ".jpg" n || (globMatch ".jpeg" n || globMatch ".png" n))
        = entries.filter isAllowed := by
    apply List.filter_congr
    intro n _
    simp [isAllowed, globExts]
  rw [hshape, ← hall]
  exact (List.Perm.append_left _ perm1).trans perm2

/-- C5: when the directory exists, the enumerator returns exactly the
entries whose name matches one of the three case-sensitive glob suffixes
`.jpg`, `.jpeg`, `.png` (as a permutation of that filter), sorted
lexicographically; the model ranges only over the files directly in the
directory, reflecting that the patterns do not recurse. -/
theorem enumerator_spec (d : Dir) (h : d.dirExists = true) :
    List.Perm (list_image_files d).1 (d.entries.filter isAllowed) ∧
    List.Sorted (· ≤ ·) (list_image_files d).1 := by
  have hd : (list_image_files d).1
      = ((globExts.map
          (fun ext => d.entries.filter (fun n => globMatch ext n))).flatten).insertionSort
          (· ≤ ·) := by
    simp [list_image_files, h]
  constructor
  · rw [hd]
    exact (List.perm_insertionSort _ _).trans (glob_flatten_perm d.entries)
  · rw [hd]
    exact List.sorted_insertionSort _ _

/-- A concrete directory with allowed and disallowed extensions. -/
def dirEx : Dir := ⟨true, ["b.png", "a.jpg", "sub.txt", "c.jpeg", "d.JPG"]⟩

/-- C5 witness: the enumerator at a concrete directory containing
allowed and disallowed extensions. -/
theorem enumerator_spec_witness :
    dirEx.dirExists = true ∧
    (List.Perm (list_image_files dirEx).1 (dirEx.entries.filter isAllowed) ∧
     List.Sorted (· ≤ ·) (list_image_files dirEx).1) :=
  ⟨rfl, enumerator_spec dirEx rfl⟩

-- ## Timestamp lemmas (C10)

lemma digitCharOf_ne_plus (d : Nat) : digitCharOf d ≠ '+' := by
  rcases d with _ | _ | _ | _ | _ | _ | _ | _ | _ | d <;>
    simp [digitCharOf]

lemma padChars_ne_plus {w n : Nat} : ∀ c ∈ padChars w n, c ≠ '+' := by
  intro c hc
  simp only [padChars, List.mem_map] at hc
  obtain ⟨i, _, rfl⟩ := hc
  exact digitCharOf_ne_plus _

lemma ne_plus_append {l₁ l₂ : List Char} (h₁ : ∀ c ∈ l₁, c ≠ '+')
    (h₂ : ∀ c ∈ l₂, c ≠ '+') : ∀ c ∈ l₁ ++ l₂, c ≠ '+' := by
  intro c hc
  rcases List.mem_append.mp hc with h | h
  exacts [h₁ c h, h₂ c h]

lemma ne_plus_cons {a : Char} {l : List Char} (ha : a ≠ '+')
    (h : ∀ c ∈ l, c ≠ '+') : ∀ c ∈ a :: l, c ≠ '+' := by
  intro c hc
  rcases List.mem_cons.mp hc with rfl | h'
  exacts [ha, h c h']

lemma isoCoreChars_ne_plus (t : UTCTime) : ∀ c ∈ isoCoreChars t, c ≠ '+' := by
  unfold isoCoreChars
  refine ne_plus_append
    (ne_plus_append
      (ne_plus_append
        (ne_plus_append
          (ne_plus_append
            (ne_plus_append padChars_ne_plus
              (ne_plus_cons (by decide) padChars_ne_plus))
            (ne_plus_cons (by decide) padChars_ne_plus))
          (ne_plus_cons (by decide) padChars_ne_plus))
        (ne_plus_cons (by decide) padChars_ne_plus))
      (ne_plus_cons (by decide) padChars_ne_plus))
    ?_
  split
  · intro c hc; simp at hc
  · exact ne_plus_cons (by decide) padChars_ne_plus

lemma replaceChars_of_clean (ps rep : List Char) :
    ∀ (base : List Char), (∀ c ∈ base, c ≠ '+') →
      replaceChars '+' ps rep (base ++ '+' :: ps) = base ++ rep
  | [], _ => by
      rw [List.nil_append, replaceChars]
      rw [if_pos (List.isPrefixOf_iff_prefix.mpr (List.prefix_refl _)),
        List.drop_length, replaceChars, List.append_nil, List.nil_append]
  | b :: bs, h => by
      have hb : ('+' : Char) ≠ b := fun e => h b (List.mem_cons_self b bs) e.symm
      have hneg : ¬ (('+' :: ps).isPrefixOf (b :: (bs ++ '+' :: ps)) = true) := by
        intro hpre
        simp only [List.isPrefixOf, Bool.and_eq_true, beq_iff_eq] at hpre
        exact hb hpre.1
      rw [List.cons_append, replaceChars, if_neg hneg,
        replaceChars_of_clean ps rep bs
          (fun c hc => h c (List.mem_cons_of_mem b hc))]
      rfl

lemma runTimestamp_eq (t : UTCTime) :
    runTimestamp t = String.mk (isoCoreChars t) ++ "Z" := by
  have h := replaceChars_of_clean "00:00".data "Z".data (isoCoreChars t)
    (isoCoreChars_ne_plus t)
  show String.mk
    (replaceChars '+' "00:00".data "Z".data (isoformat t).data) = _
  have hdata : (isoformat t).data = isoCoreChars t ++ '+' :: "00:00".data := rfl
  rw [hdata, h]
  rfl

-- ## Driver lemmas

lemma string_ext {a b : String} (h : a.data = b.data) : a = b := by
  cases a; cases b; exact congrArg String.mk h

lemma s3KeyOf_inj {a b : String} (h : s3KeyOf a = s3KeyOf b) : a = b := by
  have hd := congrArg String.data h
  simp only [s3KeyOf, String.data_append] at hd
  exact string_ext (List.append_cancel_left hd)

lemma upload_ok_key {up : String → String → Except String Unit}
    {bucket f k : String} (h : upload_to_s3 up bucket f = .ok k) :
    k = s3KeyOf f := by
  unfold upload_to_s3 at h
  cases hu : up bucket f <;> rw [hu] at h <;> simp at h
  exact h.symm

lemma processFile_fst_shape (w : World) (bucket ts branch f : String) :
    (processFile w bucket ts branch f).1 = [] ∨
    (upload_to_s3 w.uploadOutcome bucket f = .ok (s3KeyOf f) ∧
     ∃ raw, w.detectOutcome (s3KeyOf f) = .ok raw ∧
       (processFile w bucket ts branch f).1
         = [buildItem (s3KeyOf f) (normalizeLabels raw) ts branch]) := by
  cases hu : upload_to_s3 w.uploadOutcome bucket f with
  | error e => left; simp [processFile, hu]
  | ok k =>
    obtain rfl := upload_ok_key hu
    cases hd : w.detectOutcome (s3KeyOf f) with
    | error e => left; simp [processFile, detect_labels, hu, hd]
    | ok raw =>
      right
      refine ⟨rfl, raw, rfl, ?_⟩
      cases hp : w.putOutcome (buildItem (s3KeyOf f) (normalizeLabels raw) ts branch) <;>
        simp [processFile, detect_labels, write_to_dynamodb, hu, hd, hp]

lemma processFile_snd_fail (w : World) (bucket ts branch f e : String)
    (h : stageError w bucket ts branch f = some e) :
    (processFile w bucket ts branch f).2 = [failMsg f e] := by
  cases hu : upload_to_s3 w.uploadOutcome bucket f with
  | error e1 =>
    obtain rfl : e1 = e := by simpa [stageError, hu] using h
    simp [processFile, hu]
  | ok k =>
    obtain rfl := upload_ok_key hu
    cases hd : w.detectOutcome (s3KeyOf f) with
    | error e2 =>
      obtain rfl : e2 = e := by simpa [stageError, detect_labels, hu, hd] using h
      simp [processFile, detect_labels, hu, hd]
    | ok raw =>
      cases hp : w.putOutcome (buildItem (s3KeyOf f) (normalizeLabels raw)
          ts branch) with
      | error e3 =>
        obtain rfl : e3 = e := by
          simpa [stageError, detect_labels, write_to_dynamodb, hu, hd, hp] using h
        simp [processFile, detect_labels, write_to_dynamodb, hu, hd, hp]
      | ok u =>
        exact absurd h (by
          simp [stageError, detect_labels, write_to_dynamodb, hu, hd, hp])

lemma processFile_of_no_error (w : World) (bucket ts branch f : String)
    (h : stageError w bucket ts branch f = none) :
    ∃ raw, w.detectOutcome (s3KeyOf f) = .ok raw ∧
      processFile w bucket ts branch f
        = ([buildItem (s3KeyOf f) (normalizeLabels raw) ts branch],
           ["✅ Success!"]) := by
  cases hu : upload_to_s3 w.uploadOutcome bucket f with
  | error e1 => exact absurd h (by simp [stageError, hu])
  | ok k =>
    obtain rfl := upload_ok_key hu
    cases hd : w.detectOutcome (s3KeyOf f) with
    | error e2 =>
      exact absurd h (by simp [stageError, detect_labels, hu, hd])
    | ok raw =>
      cases hp : w.putOutcome (buildItem (s3KeyOf f) (normalizeLabels raw)
          ts branch) with
      | error e3 =>
        exact absurd h (by
          simp [stageError, detect_labels, write_to_dynamodb, hu, hd, hp])
      | ok u =>
        exact ⟨raw, rfl, by
          simp [processFile, detect_labels, write_to_dynamodb, hu, hd, hp]⟩

lemma main_ok_of_config (w : World) (cfg : Config)
    (h : loadConfig w.env = .ok cfg) : (main w).ok = true := by
  by_cases he : imageFiles w = [] <;> simp [main, h, he]

lemma main_puts_of_error (w : World) (e : String)
    (h : loadConfig w.env = .error e) : (main w).puts = [] := by
  simp [main, h]

lemma main_puts_of_empty (w : World) (cfg : Config)
    (h : loadConfig w.env = .ok cfg) (he : imageFiles w = []) :
    (main w).puts = [] := by
  simp [main, h, he]

lemma main_parts (w : World) (cfg : Config)
    (h : loadConfig w.env = .ok cfg) (he : imageFiles w ≠ []) :
    (main w).puts = ((imageFiles w).map
      (fun f => (processFile w cfg.s3_bucket (runTimestamp w.now)
        (branchOf w) f).1)).flatten ∧
    ∃ pre, (main w).log = pre ++ ((imageFiles w).map
      (fun f => (processFile w cfg.s3_bucket (runTimestamp w.now)
        (branchOf w) f).2)).flatten := by
  constructor
  · simp only [main, h, he, if_neg, ite_false, List.map_map]
    rfl
  · refine ⟨["✅ Starting Rekognition image analysis job",
       "   Region: " ++ cfg.aws_region,
       "   Bucket: " ++ cfg.s3_bucket,
       "   DynamoDB table: " ++ cfg.dynamodb_table,
       "   Branch: " ++ branchOf w] ++ (list_image_files w.dir).2, ?_⟩
    simp only [main, h, he, if_neg, ite_false, List.map_map, List.append_assoc]
    rfl

/-- Every item ever passed to `put_item` during a run comes from a file
whose upload and detection calls both succeeded, and is the record built
from that file's key, its normalized labels, the single run timestamp,
and the branch value. -/
lemma mem_puts_shape (w : World) {item : PyVal}
    (hitem : item ∈ (main w).puts) :
    ∃ cfg, loadConfig w.env = .ok cfg ∧
    ∃ f, f ∈ imageFiles w ∧
      upload_to_s3 w.uploadOutcome cfg.s3_bucket f = .ok (s3KeyOf f) ∧
      ∃ raw, w.detectOutcome (s3KeyOf f) = .ok raw ∧
        item = buildItem (s3KeyOf f) (normalizeLabels raw)
          (runTimestamp w.now) (branchOf w) := by
  cases hc : loadConfig w.env with
  | error e => rw [main_puts_of_error w e hc] at hitem; simp at hitem
  | ok cfg =>
    by_cases he : imageFiles w = []
    · rw [main_puts_of_empty w cfg hc he] at hitem; simp at hitem
    · rw [(main_parts w cfg hc he).1] at hitem
      rw [List.mem_flatten] at hitem
      obtain ⟨l, hl, hil⟩ := hitem
      rw [List.mem_map] at hl
      obtain ⟨f, hf, rfl⟩ := hl
      rcases processFile_fst_shape w cfg.s3_bucket (runTimestamp w.now)
        (branchOf w) f with hsh | ⟨hup, raw, hdet, hsh⟩
      · rw [hsh] at hil; simp at hil
      · rw [hsh] at hil
        obtain rfl : item = _ := by simpa using hil
        exact ⟨cfg, rfl, f, hf, hup, raw, hdet, rfl⟩

lemma dictGet_filename (k : String) (ls : List Label) (ts br : String) :
    dictGet "filename" (buildItem k ls ts br) = some (.str k) := rfl

lemma dictGet_branch (k : String) (ls : List Label) (ts br : String) :
    dictGet "branch" (buildItem k ls ts br) = some (.str br) := rfl

lemma dictGet_timestamp (k : String) (ls : List Label) (ts br : String) :
    dictGet "timestamp" (buildItem k ls ts br) = some (.str ts) := rfl

-- ## C2

/-- C2: once configuration loads, the run finishes normally (exit 0) no
matter what the per-file stages do; every file whose
upload/detection/write raises has a log line carrying its name and the
error text; and every file whose stages all succeed has its record among
the `put_item` calls (failures do not sink later files). -/
theorem driver_error_isolation (w : World) (cfg : Config)
    (h : loadConfig w.env = .ok cfg) :
    (main w).ok = true ∧
    (∀ f ∈ imageFiles w, ∀ e,
      stageError w cfg.s3_bucket (runTimestamp w.now) (branchOf w) f = some e →
      failMsg f e ∈ (main w).log) ∧
    (∀ f ∈ imageFiles w,
      stageError w cfg.s3_bucket (runTimestamp w.now) (branchOf w) f = none →
      ∃ raw, w.detectOutcome (s3KeyOf f) = .ok raw ∧
        buildItem (s3KeyOf f) (normalizeLabels raw) (runTimestamp w.now)
          (branchOf w) ∈ (main w).puts) := by
  refine ⟨main_ok_of_config w cfg h, ?_, ?_⟩
  · intro f hf e hse
    have he : imageFiles w ≠ [] := List.ne_nil_of_mem hf
    obtain ⟨pre, hlog⟩ := (main_parts w cfg h he).2
    rw [hlog]
    refine List.mem_append_right _ ?_
    rw [List.mem_flatten]
    refine ⟨[failMsg f e], ?_, by simp⟩
    rw [← processFile_snd_fail w cfg.s3_bucket (runTimestamp w.now)
      (branchOf w) f e hse]
    exact List.mem_map_of_mem _ hf
  · intro f hf hse
    have he : imageFiles w ≠ [] := List.ne_nil_of_mem hf
    obtain ⟨raw, hdet, hpf⟩ := processFile_of_no_error w cfg.s3_bucket
      (runTimestamp w.now) (branchOf w) f hse
    refine ⟨raw, hdet, ?_⟩
    rw [(main_parts w cfg h he).1]
    rw [List.mem_flatten]
    refine ⟨[buildItem (s3KeyOf f) (normalizeLabels raw) (runTimestamp w.now)
      (branchOf w)], ?_, by simp⟩
    have hfst : (processFile w cfg.s3_bucket (runTimestamp w.now)
        (branchOf w) f).1
      = [buildItem (s3KeyOf f) (normalizeLabels raw) (runTimestamp w.now)
          (branchOf w)] := by rw [hpf]
    rw [← hfst]
    exact List.mem_map_of_mem _ hf

-- ## C3

lemma detect_labels_error_iff (d : String → Except String (List RawLabel))
    (k e : String) : detect_labels d k = .error e ↔ d k = .error e := by
  cases hd : d k <;> simp [detect_labels, hd]

/-- C3: a file whose upload or detection stage raises contributes no
`put_item` invocation: every item ever passed to `put_item` carries a
different file's key, so the table is untouched for the failed file's
key. -/
theorem no_partial_record (w : World) (cfg : Config) (f : String)
    (h : loadConfig w.env = .ok cfg)
    (hfail :
      (∃ e, upload_to_s3 w.uploadOutcome cfg.s3_bucket f = .error e) ∨
      (∃ e, detect_labels w.detectOutcome (s3KeyOf f) = .error e)) :
    ∀ item ∈ (main w).puts,
      dictGet "filename" item ≠ some (.str (s3KeyOf f)) := by
  intro item hitem heq
  obtain ⟨cfg2, hc2, f2, hf2, hup2, raw2, hdet2, rfl⟩ := mem_puts_shape w hitem
  have hcfg : cfg2 = cfg := by
    rw [h] at hc2
    exact (Except.ok.inj hc2).symm
  subst hcfg
  rw [dictGet_filename] at heq
  simp only [Option.some.injEq, PyVal.str.injEq] at heq
  obtain rfl := s3KeyOf_inj heq
  rcases hfail with ⟨e, he⟩ | ⟨e, he⟩
  · rw [hup2] at he
    exact Except.noConfusion he
  · rw [detect_labels_error_iff] at he
    rw [hdet2] at he
    exact Except.noConfusion he

-- ## C9

/-- C9: with the optional branch variable absent, the driver uses the
literal default `"unknown"`, and every record written during the run
carries that branch value. -/
theorem branch_default_in_records (w : World)
    (h : w.env "BRANCH_NAME" = none) :
    branchOf w = "unknown" ∧
    ∀ item ∈ (main w).puts,
      dictGet "branch" item = some (.str "unknown") := by
  have hb : branchOf w = "unknown" := by simp [branchOf, h]
  refine ⟨hb, ?_⟩
  intro item hitem
  obtain ⟨cfg, _, f, _, _, raw, _, rfl⟩ := mem_puts_shape w hitem
  rw [dictGet_branch, hb]

-- ## C10

/-- C10: the run timestamp is computed once from the single clock
reading taken before the file loop, so every record written in the run
carries the identical timestamp string, and that string ends in `"Z"`
(the `+00:00` offset suffix of an aware-UTC `isoformat` is replaced by
`"Z"`, and no `+` occurs earlier in the rendering). -/
theorem run_timestamp_single_and_utc (w : World) :
    (∃ b, runTimestamp w.now = b ++ "Z") ∧
    ∀ item ∈ (main w).puts,
      dictGet "timestamp" item = some (.str (runTimestamp w.now)) := by
  refine ⟨⟨String.mk (isoCoreChars w.now), runTimestamp_eq w.now⟩, ?_⟩
  intro item hitem
  obtain ⟨cfg, _, f, _, _, raw, _, rfl⟩ := mem_puts_shape w hitem
  rw [dictGet_timestamp]

-- ## Concrete runs

/-- A UTC instant used by the concrete runs. -/
def nowEx : UTCTime := ⟨2026, 10, 12, 8, 30, 5, 123456⟩

/-- A run in which every external call succeeds for the single image
`cat.jpg`, Rekognition returning confidence 95.2 (= 476/5 exactly). -/
def wOk : World :=
  { env := envFull
    dir := ⟨true, ["cat.jpg"]⟩
    now := nowEx
    uploadOutcome := fun _ _ => .ok ()
    detectOutcome := fun _ => .ok [⟨some "Cat", some (476/5)⟩]
    putOutcome := fun _ => .ok () }

/-- A run over two images in which the upload call of `a.jpg` throws. -/
def wFail : World :=
  { env := envFull
    dir := ⟨true, ["a.jpg", "b.png"]⟩
    now := nowEx
    uploadOutcome := fun _ f => if f = "a.jpg" then .error "boom" else .ok ()
    detectOutcome := fun _ => .ok [⟨some "Cat", some (476/5)⟩]
    putOutcome := fun _ => .ok () }

/-- The configuration `envFull` loads. -/
def cfgEx : Config := ⟨"us-east-1", "my-bucket", "my-table"⟩

-- ## C1

/-- C1 (refuted by the code): `write_to_dynamodb` performs no
float-to-exact-numeric conversion anywhere: in a concrete fully
successful run the item passed to `put_item` is exactly the record as
built, and it still contains a Python-float leaf (the confidence 95.2)
— no leaf was converted to the table's exact-numeric representation
before the write. -/
theorem no_decimal_conversion_before_put :
    (main wOk).puts
      = [buildItem (s3KeyOf "cat.jpg") [⟨"Cat", 476/5⟩]
          (runTimestamp wOk.now) (branchOf wOk)] ∧
    containsFloat (buildItem (s3KeyOf "cat.jpg") [⟨"Cat", 476/5⟩]
      (runTimestamp wOk.now) (branchOf wOk)) = true :=
  ⟨rfl, rfl⟩

-- ## Witnesses for the driver theorems

/-- C2 witness: in the concrete two-file run whose first upload throws,
the process still exits 0, the log carries the first file's name with
the error text, and the second file is fully processed and recorded. -/
theorem driver_error_isolation_witness :
    loadConfig wFail.env = .ok cfgEx ∧
    (main wFail).ok = true ∧
    failMsg "a.jpg" "boom" ∈ (main wFail).log ∧
    (∃ raw, wFail.detectOutcome (s3KeyOf "b.png") = .ok raw ∧
      buildItem (s3KeyOf "b.png") (normalizeLabels raw)
        (runTimestamp wFail.now) (branchOf wFail) ∈ (main wFail).puts) := by
  have himg : imageFiles wFail = ["a.jpg", "b.png"] := by
    simp [imageFiles, wFail, list_image_files, globExts, globMatch,
      List.insertionSort, List.orderedInsert]
    decide
  have h2 := driver_error_isolation wFail cfgEx rfl
  refine ⟨rfl, h2.1, ?_, ?_⟩
  · exact h2.2.1 "a.jpg" (by rw [himg]; simp) "boom" rfl
  · exact h2.2.2 "b.png" (by rw [himg]; simp) rfl

/-- C3 witness: in the same run, `a.jpg` fails at upload and no item
passed to `put_item` carries its key. -/
theorem no_partial_record_witness :
    (∃ e, upload_to_s3 wFail.uploadOutcome cfgEx.s3_bucket "a.jpg"
      = .error e) ∧
    ∀ item ∈ (main wFail).puts,
      dictGet "filename" item ≠ some (.str (s3KeyOf "a.jpg")) :=
  ⟨⟨"boom", rfl⟩,
   no_partial_record wFail cfgEx "a.jpg" rfl (Or.inl ⟨"boom", rfl⟩)⟩

/-- C9 witness: the concrete run has no `BRANCH_NAME` in its
environment, so the branch defaults to `"unknown"` in every record. -/
theorem branch_default_in_records_witness :
    wOk.env "BRANCH_NAME" = none ∧
    (branchOf wOk = "unknown" ∧
     ∀ item ∈ (main wOk).puts,
       dictGet "branch" item = some (.str "unknown")) :=
  ⟨rfl, branch_default_in_records wOk rfl⟩

/-- C10 witness: the single-run timestamp property at the concrete run. -/
theorem run_timestamp_single_and_utc_witness :
    (∃ b, runTimestamp wOk.now = b ++ "Z") ∧
    ∀ item ∈ (main wOk).puts,
      dictGet "timestamp" item = some (.str (runTimestamp wOk.now)) :=
  run_timestamp_single_and_utc wOk

end AnalyzeImage





